import Mathlib

/-!
# stompngo: the connection core (`connection.go`)

A shallow embedding of the methods of `connection.go` and the properties the
specification states about them.

Conventions of the embedding.

* A method with receiver `c *Connection` that only reads fields is a function
  of a `Connection` record.
* A method that sends on a channel or calls the logger is a function
  `World → World`.  A `World` is the connection record together with the
  sequence (`trace`) of the channel sends and logger calls performed so far,
  in program order.  A send `ch <- v` is modelled as the execution of that
  statement: it appends one event to the trace.  Whether a receiver is ready
  (so whether the goroutine would block) belongs to the scheduler and is not
  part of this development.  The properties of `shutdown` are therefore
  stated for one call: what a repeated call does at a stop channel whose
  receiver has already gone is decided by the channel and its receiver, not
  by the statements embedded here.
* A channel is named by the field or map key through which the code reaches it
  (`c.input`, `c.subs[key]`, `c.hbd.ssd`, `c.hbd.rsd`, `c.wsd`): every
  subscription id owns its dedicated queue.
* `int64` values are `Int`.  The only arithmetic in the file is a division by
  the constant `1000000`, which cannot overflow; Go's `/` on integers
  truncates toward zero, which is `Int.tdiv`.
-/

namespace Stompngo

/-! ## Data model -/

/-- Modelled from the spec: the declaration of `MessageData` is outside
`connection.go`.  The envelope carries either a received frame or an error
condition, tagged so that consumers can tell the two apart. -/
inductive MessageData where
  | frame (body : String)
  | error (reason : String)
  deriving DecidableEq, Repr

/-- Modelled from the spec: the struct behind `c.hbd` is declared outside
`connection.go`.  The fields are the ones `connection.go` reads: the send and
receive ticker intervals in nanoseconds (`sti`, `rti`), the send and receive
ticker counts (`sc`, `rc`) and the flags saying whether the send and receive
direction is enabled (`hbs`, `hbr`).  Its two stop channels `ssd` and `rsd`
are the channels `StopChan.ssd` and `StopChan.rsd`. -/
structure HeartbeatDescriptor where
  sti : Int
  rti : Int
  sc : Int
  rc : Int
  hbs : Bool
  hbr : Bool
  deriving DecidableEq, Repr

/-- The `chan bool` channels used to stop background goroutines: `c.hbd.ssd`
(send heartbeat), `c.hbd.rsd` (receive heartbeat) and `c.wsd` (writer). -/
inductive StopChan where
  | ssd
  | rsd
  | wsd
  deriving DecidableEq, Repr

/-- The `chan MessageData` channels: the general queue `c.input` and the
queue `c.subs[key]` of the subscription with id `key`. -/
inductive MsgChan where
  | input
  | sub (key : String)
  deriving DecidableEq, Repr

/-- An instrumented log sink (`*log.Logger`), identified by a number. -/
abbrev Logger := Nat

/-- A value handed to `log` through its variadic `...interface{}` parameter. -/
inductive Value where
  | str (s : String)
  | int (i : Int)
  | bool (b : Bool)
  deriving DecidableEq, Repr

/-- One observable action of the connection core. -/
inductive Event where
  /-- The send `ch <- md` on a message channel. -/
  | msg (ch : MsgChan) (md : MessageData)
  /-- The send `ch <- b` on a stop channel. -/
  | stop (ch : StopChan) (b : Bool)
  /-- The call `l.Print(session, v)`: one record written to the sink `l`, made
  of the session id followed by the slice `v` of logged values. -/
  | print (l : Logger) (session : String) (v : List Value)
  deriving DecidableEq, Repr

/-- Modelled from the spec: the struct declaration of `Connection` is outside
`connection.go`.  The fields are the ones `connection.go` uses.  `logger` and
`hbd` are pointers that may be nil.  `subs` is the key set of the map
`map[string]chan MessageData`: a Go map holds every key once, and the order
of the list stands for the order in which `range` happens to visit the keys
(Go leaves that order unspecified, and the theorems hold for every order).
The channels `input` and `wsd` are `MsgChan.input` and `StopChan.wsd`. -/
structure Connection where
  connected : Bool
  session : String
  protocol : String
  logger : Option Logger
  hbd : Option HeartbeatDescriptor
  subs : { keys : List String // keys.Nodup }
  deriving DecidableEq

/-- The connection together with everything it has sent and logged so far. -/
structure World where
  conn : Connection
  trace : List Event
  deriving DecidableEq

/-- Execute one send or logger call: the event is appended to the trace. -/
def World.emit (w : World) (ev : Event) : World :=
  { w with trace := w.trace ++ [ev] }

/-- Modelled from the spec: the type of the package variable `supported` and
its lookup method are declared outside `connection.go`.  The registry is a
fixed set of supported version strings. -/
structure protocols where
  versions : List String
  deriving DecidableEq, Repr

/-- Modelled from the spec: the registry lookup `supported.Supported(v)`, a
pure function answering whether `v` is one of the supported version strings. -/
def protocols.Supported (p : protocols) (v : String) : Bool :=
  p.versions.contains v

/-! ## Exported Connection methods -/

/-- Connected returns the current connection status. -/
def Connected (c : Connection) : Bool :=
  c.connected

/-- Session returns the broker assigned session id. -/
def Session (c : Connection) : String :=
  c.session

/-- Protocol returns the current connection protocol level. -/
def Protocol (c : Connection) : String :=
  c.protocol

/-- SetLogger stores the logger `l`; `none` is Go's `nil` and disables
logging. -/
def SetLogger (l : Option Logger) (w : World) : World :=
  { w with conn := { w.conn with logger := l } }

/-- SendTickerInterval returns any heartbeat send ticker interval in ms.  A
return value of zero means no heartbeats are being sent. -/
def SendTickerInterval (c : Connection) : Int :=
  match c.hbd with
  | none => 0
  | some hbd => hbd.sti.tdiv 1000000

/-- ReceiveTickerInterval returns any heartbeat receive ticker interval in
ms.  A return value of zero means no heartbeats are being received. -/
def ReceiveTickerInterval (c : Connection) : Int :=
  match c.hbd with
  | none => 0
  | some hbd => hbd.rti.tdiv 1000000

/-- SendTickerCount returns any heartbeat send ticker count. -/
def SendTickerCount (c : Connection) : Int :=
  match c.hbd with
  | none => 0
  | some hbd => hbd.sc

/-- ReceiveTickerCount returns any heartbeat receive ticker count. -/
def ReceiveTickerCount (c : Connection) : Int :=
  match c.hbd with
  | none => 0
  | some hbd => hbd.rc

/-! ## Package exported functions -/

/-- Supported checks if a particular STOMP version is supported.  The package
variable `supported` that the Go function reads is the first argument. -/
def Supported (supported : protocols) (v : String) : Bool :=
  supported.Supported v

/-! ## Unexported Connection methods -/

/-- Log data if possible. -/
def log (v : List Value) (w : World) : World :=
  match w.conn.logger with
  | none => w
  | some l => w.emit (.print l w.conn.session v)

/-- Shutdown logic. -/
def shutdown (w : World) : World :=
  -- Shutdown heartbeats if necessary
  let w1 :=
    match w.conn.hbd with
    | none => w
    | some hbd =>
      let wa := if hbd.hbs then w.emit (.stop .ssd true) else w
      if hbd.hbr then wa.emit (.stop .rsd true) else wa
  -- Stop writer go routine
  let w2 := w1.emit (.stop .wsd true)
  -- We are not connected
  { w2 with conn := { w2.conn with connected := false } }

/-- Read error handler. -/
def handleReadError (md : MessageData) (w : World) : World :=
  -- Notify any general subscriber of error
  let w1 := w.emit (.msg .input md)
  -- Notify all individual subscribers of error.  The loop runs between
  -- c.subsLock.Lock() and c.subsLock.Unlock(), which keep other goroutines
  -- away from the map and have no effect of their own in this run.
  w.conn.subs.val.foldl (fun acc key => acc.emit (.msg (.sub key) md)) w1

/-! ## Observations on a trace -/

/-- The envelopes sent to the message channel `ch`, in order. -/
def queue (ch : MsgChan) (tr : List Event) : List MessageData :=
  tr.filterMap fun ev =>
    match ev with
    | .msg c md => if c = ch then some md else none
    | _ => none

/-- The stop signals sent, in order, as the channels they were sent on. -/
def stopSignals (tr : List Event) : List StopChan :=
  tr.filterMap fun ev =>
    match ev with
    | .stop ch _ => some ch
    | _ => none

/-- The records written to the sink `l`, in order. -/
def records (l : Logger) (tr : List Event) : List (String × List Value) :=
  tr.filterMap fun ev =>
    match ev with
    | .print s session v => if s = l then some (session, v) else none
    | _ => none

/-- A sequence of internal log calls, one per element of `calls`. -/
def logAll (calls : List (List Value)) (w : World) : World :=
  calls.foldl (fun acc v => log v acc) w

/-- The events performed between the world `w` and a later world `w2`. -/
def emitted (w w2 : World) : List Event :=
  w2.trace.drop w.trace.length

/-- The stop sequence as the specification words it: the send-heartbeat stop
signal if a descriptor exists and its send direction is enabled, then the
receive-heartbeat stop signal if a descriptor exists and its receive direction
is enabled, then the writer stop signal unconditionally. -/
def specStopSequence (c : Connection) : List Event :=
  (if c.hbd.any (fun h => h.hbs) then [Event.stop .ssd true] else []) ++
  (if c.hbd.any (fun h => h.hbr) then [Event.stop .rsd true] else []) ++
  [Event.stop .wsd true]

/-! ## Concrete connections used in the examples -/

/-- An error envelope. -/
def eofError : MessageData := .error "EOF"

/-- A connected session without heartbeats and without subscriptions. -/
def plainConn : Connection :=
  { connected := true, session := "s-1", protocol := "1.1", logger := none,
    hbd := none, subs := ⟨[], by decide⟩ }

/-- A connected session with three subscriptions. -/
def subscribedConn : Connection :=
  { plainConn with subs := ⟨["A", "B", "C"], by decide⟩ }

/-- A descriptor with both directions enabled: 15 ms send, 30 ms receive. -/
def bothWays : HeartbeatDescriptor :=
  { sti := 15000000, rti := 30000000, sc := 4, rc := 9, hbs := true, hbr := true }

/-- A descriptor whose send interval is below one millisecond. -/
def subMilli : HeartbeatDescriptor :=
  { sti := 999999, rti := 0, sc := 0, rc := 0, hbs := true, hbr := false }

/-- A descriptor whose receive interval is below one millisecond. -/
def subMilliReceive : HeartbeatDescriptor :=
  { sti := 0, rti := 999999, sc := 0, rc := 0, hbs := false, hbr := true }

/-- A connected session with the heartbeat descriptor `h`. -/
def beatingConn (h : HeartbeatDescriptor) : Connection :=
  { plainConn with hbd := some h }

/-- A world that has not sent anything yet. -/
def fresh (c : Connection) : World :=
  { conn := c, trace := [] }

/-! ## Lemmas on the trace -/

theorem emit_trace (w : World) (ev : Event) : (w.emit ev).trace = w.trace ++ [ev] := rfl

theorem emit_conn (w : World) (ev : Event) : (w.emit ev).conn = w.conn := rfl

theorem emitted_append (w w2 : World) (new : List Event) (h : w2.trace = w.trace ++ new) :
    emitted w w2 = new := by
  simp [emitted, h]

theorem queue_append (ch : MsgChan) (a b : List Event) :
    queue ch (a ++ b) = queue ch a ++ queue ch b := by
  simp [queue, List.filterMap_append]

theorem stopSignals_append (a b : List Event) :
    stopSignals (a ++ b) = stopSignals a ++ stopSignals b := by
  simp [stopSignals, List.filterMap_append]

theorem records_append (l : Logger) (a b : List Event) :
    records l (a ++ b) = records l a ++ records l b := by
  simp [records, List.filterMap_append]

/-- The fan-out loop of `handleReadError` sends one envelope per key, in the
order of the iteration, and does not touch the connection record. -/
theorem fanout_loop (md : MessageData) (keys : List String) (acc : World) :
    keys.foldl (fun acc key => acc.emit (.msg (.sub key) md)) acc =
      { conn := acc.conn, trace := acc.trace ++ keys.map fun k => .msg (.sub k) md } := by
  induction keys generalizing acc with
  | nil => simp
  | cons k ks ih => simp [List.foldl_cons, ih, emit_trace, emit_conn]

/-- The sends of `handleReadError`: the general queue first, then one send per
subscription key. -/
theorem handleReadError_trace (md : MessageData) (w : World) :
    (handleReadError md w).trace =
      w.trace ++ .msg .input md :: w.conn.subs.val.map fun k => .msg (.sub k) md := by
  simp [handleReadError, fanout_loop, emit_trace]

theorem handleReadError_conn (md : MessageData) (w : World) :
    (handleReadError md w).conn = w.conn := by
  simp [handleReadError, fanout_loop, emit_conn]

/-- What a fan-out over distinct keys puts on the queue of subscription `k`. -/
theorem queue_sub_fanout (md : MessageData) (k : String) (keys : List String)
    (hk : keys.Nodup) :
    queue (.sub k) (keys.map fun j => Event.msg (.sub j) md) =
      if k ∈ keys then [md] else [] := by
  induction keys with
  | nil => simp [queue]
  | cons j js ih =>
    have hj : j ∉ js := (List.nodup_cons.mp hk).1
    have ih2 := ih (List.nodup_cons.mp hk).2
    rw [List.map_cons, ← List.singleton_append, queue_append, ih2]
    by_cases hjk : j = k
    · subst hjk
      simp [queue, hj]
    · have hkj : ¬ k = j := fun h => hjk h.symm
      simp [queue, hjk, hkj]

theorem queue_input_fanout (md : MessageData) (keys : List String) :
    queue .input (keys.map fun j => Event.msg (.sub j) md) = [] := by
  induction keys with
  | nil => simp [queue]
  | cons j js ih =>
    rw [List.map_cons, ← List.singleton_append, queue_append, ih]
    simp [queue]

theorem stopSignals_fanout (md : MessageData) (keys : List String) :
    stopSignals (keys.map fun j => Event.msg (.sub j) md) = [] := by
  induction keys with
  | nil => simp [stopSignals]
  | cons j js ih =>
    rw [List.map_cons, ← List.singleton_append, stopSignals_append, ih]
    simp [stopSignals]

theorem records_fanout (l : Logger) (md : MessageData) (keys : List String) :
    records l (keys.map fun j => Event.msg (.sub j) md) = [] := by
  induction keys with
  | nil => simp [records]
  | cons j js ih =>
    rw [List.map_cons, ← List.singleton_append, records_append, ih]
    simp [records]

theorem shutdown_trace (w : World) :
    (shutdown w).trace = w.trace ++ specStopSequence w.conn := by
  unfold shutdown specStopSequence
  cases hh : w.conn.hbd with
  | none => simp [emit_trace]
  | some h =>
    cases hs : h.hbs <;> cases hr : h.hbr <;> simp [emit_trace, hs, hr]

theorem shutdown_conn (w : World) :
    (shutdown w).conn = { w.conn with connected := false } := by
  unfold shutdown
  cases hh : w.conn.hbd with
  | none => simp [emit_conn]
  | some h =>
    cases hs : h.hbs <;> cases hr : h.hbr <;> simp [emit_conn, hs, hr]

theorem tdiv_million (a : Int) :
    a.tdiv 1000000 = a.sign * ((a.natAbs / 1000000 : Nat) : Int) := by
  rcases Int.natAbs_eq a with h | h
  · rw [h]
    rcases Nat.eq_zero_or_pos a.natAbs with h0 | h0
    · rw [h0]; rfl
    · have hs : ((a.natAbs : Nat) : Int).sign = 1 := Int.sign_eq_one_of_pos (by omega)
      rw [hs, one_mul, Int.natAbs_ofNat]
      exact (Int.ofNat_tdiv a.natAbs 1000000).symm
  · rw [h]
    rcases Nat.eq_zero_or_pos a.natAbs with h0 | h0
    · rw [h0]; rfl
    · have hs : (-((a.natAbs : Nat) : Int)).sign = -1 := Int.sign_eq_neg_one_of_neg (by omega)
      rw [hs, Int.neg_tdiv, Int.natAbs_neg, Int.natAbs_ofNat]
      have := Int.ofNat_tdiv a.natAbs 1000000
      simp only [Nat.cast_ofNat] at this
      rw [← this]
      ring

theorem tdiv_million_floor (a : Int) (ha : 0 ≤ a) :
    a.tdiv 1000000 = ⌊(a : ℚ) / 1000000⌋ := by
  rw [Int.tdiv_eq_ediv ha (by norm_num)]
  have := Rat.floor_intCast_div_natCast a 1000000
  simp only [Nat.cast_ofNat] at this
  exact this.symm

/-! ## Read-error fan-out -/

/-- C1: `handleReadError e` appends `e` exactly once to the general input
queue and exactly once to the queue of every registered subscription id; no
other message queue, no stop channel and no log sink receives anything; the
events it performs are one send to the general queue followed by sends to
registered subscriptions, each occurring once; the connection record, and with
it the set of registered ids, is unchanged; with zero subscriptions the only
event is the single send to the general queue. -/
theorem handleReadError_fans_out (w : World) (e : MessageData) :
    queue .input (handleReadError e w).trace = queue .input w.trace ++ [e]
    ∧ (∀ k, k ∈ w.conn.subs.val →
        queue (.sub k) (handleReadError e w).trace = queue (.sub k) w.trace ++ [e])
    ∧ (∀ k, k ∉ w.conn.subs.val →
        queue (.sub k) (handleReadError e w).trace = queue (.sub k) w.trace)
    ∧ stopSignals (handleReadError e w).trace = stopSignals w.trace
    ∧ (∀ l, records l (handleReadError e w).trace = records l w.trace)
    ∧ (emitted w (handleReadError e w)).count (.msg .input e) = 1
    ∧ (∀ k, k ∈ w.conn.subs.val →
        (emitted w (handleReadError e w)).count (.msg (.sub k) e) = 1)
    ∧ (∀ ev, ev ∈ emitted w (handleReadError e w) →
        ev = .msg .input e ∨ ∃ k, k ∈ w.conn.subs.val ∧ ev = .msg (.sub k) e)
    ∧ (handleReadError e w).conn = w.conn
    ∧ (handleReadError e w).conn.subs = w.conn.subs
    ∧ (w.conn.subs.val = [] → emitted w (handleReadError e w) = [.msg .input e]) := by
  have ht := handleReadError_trace e w
  have hem := emitted_append w (handleReadError e w) _ ht
  have hnd := w.conn.subs.property
  refine ⟨?_, ?_, ?_, ?_, ?_, ?_, ?_, ?_, ?_, ?_, ?_⟩
  · rw [ht, queue_append, ← List.singleton_append, queue_append, queue_input_fanout]
    simp [queue]
  · intro k hk
    rw [ht, queue_append, ← List.singleton_append, queue_append, queue_sub_fanout e k _ hnd]
    simp [queue, hk]
  · intro k hk
    rw [ht, queue_append, ← List.singleton_append, queue_append, queue_sub_fanout e k _ hnd]
    simp [queue, hk]
  · rw [ht, stopSignals_append, ← List.singleton_append, stopSignals_append,
      stopSignals_fanout]
    simp [stopSignals]
  · intro l
    rw [ht, records_append, ← List.singleton_append, records_append, records_fanout]
    simp [records]
  · rw [hem, List.count_cons_self]
    have h0 : List.count (Event.msg .input e)
        (w.conn.subs.val.map fun k => Event.msg (.sub k) e) = 0 := by
      apply List.count_eq_zero_of_not_mem
      simp
    rw [h0]
  · intro k hk
    rw [hem, List.count_cons_of_ne (by simp)]
    have hinj : Function.Injective (fun k => Event.msg (.sub k) e) := by
      intro a b hab
      simpa using hab
    rw [List.count_map_of_injective _ _ hinj]
    exact List.count_eq_one_of_mem hnd hk
  · intro ev hev
    rw [hem] at hev
    rcases List.mem_cons.mp hev with h | h
    · exact Or.inl h
    · obtain ⟨k, hk, rfl⟩ := List.mem_map.mp h
      exact Or.inr ⟨k, hk, rfl⟩
  · exact handleReadError_conn e w
  · rw [handleReadError_conn]
  · intro h0
    rw [hem, h0]
    rfl

/-- C1, at a connection with the subscriptions A, B and C and at one with no
subscription. -/
theorem handleReadError_fans_out_witness :
    queue (.sub "B") (handleReadError eofError (fresh subscribedConn)).trace = [eofError]
    ∧ queue (.sub "Z") (handleReadError eofError (fresh subscribedConn)).trace = []
    ∧ (emitted (fresh subscribedConn)
        (handleReadError eofError (fresh subscribedConn))).count (.msg (.sub "C") eofError) = 1
    ∧ emitted (fresh plainConn) (handleReadError eofError (fresh plainConn))
        = [.msg .input eofError] :=
  ⟨(handleReadError_fans_out (fresh subscribedConn) eofError).2.1 "B" (by decide),
   (handleReadError_fans_out (fresh subscribedConn) eofError).2.2.1 "Z" (by decide),
   (handleReadError_fans_out (fresh subscribedConn) eofError).2.2.2.2.2.2.1 "C" (by decide),
   (handleReadError_fans_out (fresh plainConn) eofError).2.2.2.2.2.2.2.2.2.2 rfl⟩

/-! ## Shutdown -/

/-- C2: one call of `shutdown` performs exactly the stop sequence of the
specification: the send-heartbeat stop signal iff a descriptor exists with the
send direction enabled, then the receive-heartbeat stop signal iff a
descriptor exists with the receive direction enabled, then the writer stop
signal, which is always the last event, also when no descriptor exists. -/
theorem shutdown_stop_sequence (w : World) :
    emitted w (shutdown w) = specStopSequence w.conn
    ∧ stopSignals (emitted w (shutdown w)) =
        (if (∃ h, w.conn.hbd = some h ∧ h.hbs = true) then [StopChan.ssd] else []) ++
        (if (∃ h, w.conn.hbd = some h ∧ h.hbr = true) then [StopChan.rsd] else []) ++
        [StopChan.wsd]
    ∧ (StopChan.ssd ∈ stopSignals (emitted w (shutdown w)) ↔
        ∃ h, w.conn.hbd = some h ∧ h.hbs = true)
    ∧ (StopChan.rsd ∈ stopSignals (emitted w (shutdown w)) ↔
        ∃ h, w.conn.hbd = some h ∧ h.hbr = true)
    ∧ (w.conn.hbd = none → emitted w (shutdown w) = [.stop .wsd true]) := by
  have hem := emitted_append w (shutdown w) _ (shutdown_trace w)
  rw [hem]
  unfold specStopSequence
  cases hh : w.conn.hbd with
  | none => simp [stopSignals]
  | some h =>
    cases hs : h.hbs <;> cases hr : h.hbr <;> simp [stopSignals, hs, hr]

/-- C2, at a connection without a heartbeat descriptor: the writer stop signal
alone. -/
theorem shutdown_stop_sequence_witness :
    emitted (fresh plainConn) (shutdown (fresh plainConn)) = [.stop .wsd true] :=
  (shutdown_stop_sequence (fresh plainConn)).2.2.2.2 rfl

/-- C3: after `shutdown` returns, `Connected` returns false, whatever the
state of the connection before. -/
theorem shutdown_disconnects (w : World) : Connected (shutdown w).conn = false := by
  rw [shutdown_conn]
  rfl

/-- C8 fails on the code: a connection that holds a heartbeat descriptor still
holds it after `shutdown` has returned. -/
theorem shutdown_keeps_descriptor_example :
    (fresh (beatingConn bothWays)).conn.hbd = some bothWays
    ∧ (shutdown (fresh (beatingConn bothWays))).conn.hbd = some bothWays
    ∧ (shutdown (fresh (beatingConn bothWays))).conn.hbd ≠ none := by
  decide

/-- C8 as amended: `shutdown` does not dereference the heartbeat descriptor;
after it returns the connection holds the descriptor it held before,
unchanged (present iff it was present before). -/
theorem shutdown_keeps_descriptor (w : World) :
    (shutdown w).conn.hbd = w.conn.hbd := by
  rw [shutdown_conn]

/-! ## Heartbeat accessors -/

/-- C5: on a connection with a heartbeat descriptor, `SendTickerInterval` is
the stored send interval divided by 1,000,000 with truncation (the sign of the
interval times the whole number of millions in its magnitude), which for a
non-negative interval is the floor of interval/1,000,000; a stored interval of
15,000,000 gives 15 and one of 999,999 gives 0; `ReceiveTickerInterval` does
the same with the stored receive interval. -/
theorem ticker_interval_truncates (c : Connection) (h : HeartbeatDescriptor)
    (hc : c.hbd = some h) :
    SendTickerInterval c = h.sti.sign * ((h.sti.natAbs / 1000000 : Nat) : Int)
    ∧ ReceiveTickerInterval c = h.rti.sign * ((h.rti.natAbs / 1000000 : Nat) : Int)
    ∧ (0 ≤ h.sti → SendTickerInterval c = ⌊(h.sti : ℚ) / 1000000⌋)
    ∧ (0 ≤ h.rti → ReceiveTickerInterval c = ⌊(h.rti : ℚ) / 1000000⌋)
    ∧ (h.sti = 15000000 → SendTickerInterval c = 15)
    ∧ (h.sti = 999999 → SendTickerInterval c = 0)
    ∧ (h.rti = 15000000 → ReceiveTickerInterval c = 15)
    ∧ (h.rti = 999999 → ReceiveTickerInterval c = 0) := by
  have hs : SendTickerInterval c = h.sti.tdiv 1000000 := by simp [SendTickerInterval, hc]
  have hr : ReceiveTickerInterval c = h.rti.tdiv 1000000 := by
    simp [ReceiveTickerInterval, hc]
  rw [hs, hr]
  refine ⟨tdiv_million _, tdiv_million _, tdiv_million_floor _, tdiv_million_floor _,
    ?_, ?_, ?_, ?_⟩
  · intro h1; rw [h1]; rfl
  · intro h1; rw [h1]; rfl
  · intro h1; rw [h1]; rfl
  · intro h1; rw [h1]; rfl

/-- C5, at a descriptor with a 15 ms send interval and at one with a send
interval of 999,999 ns. -/
theorem ticker_interval_truncates_witness :
    SendTickerInterval (beatingConn bothWays) = 15
    ∧ ReceiveTickerInterval (beatingConn bothWays) = ⌊((30000000 : Int) : ℚ) / 1000000⌋
    ∧ SendTickerInterval (beatingConn subMilli) = 0 :=
  ⟨(ticker_interval_truncates (beatingConn bothWays) bothWays rfl).2.2.2.2.1 rfl,
   (ticker_interval_truncates (beatingConn bothWays) bothWays rfl).2.2.2.1 (by decide),
   (ticker_interval_truncates (beatingConn subMilli) subMilli rfl).2.2.2.2.2.1 rfl⟩

/-- C6: without a heartbeat descriptor the four ticker accessors return 0;
with a descriptor `SendTickerCount` and `ReceiveTickerCount` return its raw
send and receive counters. -/
theorem ticker_accessors_raw (c : Connection) :
    (c.hbd = none →
      SendTickerInterval c = 0 ∧ ReceiveTickerInterval c = 0
      ∧ SendTickerCount c = 0 ∧ ReceiveTickerCount c = 0)
    ∧ (∀ h, c.hbd = some h → SendTickerCount c = h.sc ∧ ReceiveTickerCount c = h.rc) := by
  constructor
  · intro h0
    simp [SendTickerInterval, ReceiveTickerInterval, SendTickerCount, ReceiveTickerCount, h0]
  · intro h hc
    simp [SendTickerCount, ReceiveTickerCount, hc]

/-- C6, at a connection without a descriptor and at one whose descriptor has
counted 4 sends and 9 receives. -/
theorem ticker_accessors_raw_witness :
    (SendTickerInterval plainConn = 0 ∧ ReceiveTickerInterval plainConn = 0
      ∧ SendTickerCount plainConn = 0 ∧ ReceiveTickerCount plainConn = 0)
    ∧ (SendTickerCount (beatingConn bothWays) = 4
      ∧ ReceiveTickerCount (beatingConn bothWays) = 9) :=
  ⟨(ticker_accessors_raw plainConn).1 rfl,
   (ticker_accessors_raw (beatingConn bothWays)).2 bothWays rfl⟩

/-- C7: the code breaks the claim.  On a connection whose descriptor has the
send direction enabled with a stored send interval of 999,999 ns,
`SendTickerInterval` returns 0 although the descriptor is present and
heartbeats are being sent, so both interval accessors report 0 without the
descriptor being absent; on a connection whose descriptor has the receive
direction enabled with a stored receive interval of 999,999 ns,
`ReceiveTickerInterval` returns 0 although heartbeats are being received. -/
theorem zero_interval_while_beating :
    ((beatingConn subMilli).hbd = some subMilli
      ∧ subMilli.hbs = true
      ∧ SendTickerInterval (beatingConn subMilli) = 0
      ∧ ReceiveTickerInterval (beatingConn subMilli) = 0
      ∧ ¬ ((beatingConn subMilli).hbd = none ↔
            (SendTickerInterval (beatingConn subMilli) = 0
              ∧ ReceiveTickerInterval (beatingConn subMilli) = 0)))
    ∧ ((beatingConn subMilliReceive).hbd = some subMilliReceive
      ∧ subMilliReceive.hbr = true
      ∧ ReceiveTickerInterval (beatingConn subMilliReceive) = 0
      ∧ SendTickerInterval (beatingConn subMilliReceive) = 0
      ∧ ¬ ((beatingConn subMilliReceive).hbd = none ↔
            (SendTickerInterval (beatingConn subMilliReceive) = 0
              ∧ ReceiveTickerInterval (beatingConn subMilliReceive) = 0))) := by
  decide

/-! ## Logging -/

/-- C9: after `SetLogger s` followed by `SetLogger nil`, any sequence of
internal log calls leaves the world as it is, so no sink is invoked and the
sink `s` has the records it had before; while a sink is set, one log call
performs exactly one event, the record made of the session id followed by the
logged values, written to that sink and to no other. -/
theorem log_follows_SetLogger (w : World) (s : Logger) (calls : List (List Value))
    (v : List Value) :
    logAll calls (SetLogger none (SetLogger (some s) w))
        = SetLogger none (SetLogger (some s) w)
    ∧ emitted w (logAll calls (SetLogger none (SetLogger (some s) w))) = []
    ∧ records s (logAll calls (SetLogger none (SetLogger (some s) w))).trace
        = records s w.trace
    ∧ (w.conn.logger = some s →
        emitted w (log v w) = [.print s w.conn.session v]
        ∧ records s (log v w).trace = records s w.trace ++ [(w.conn.session, v)]
        ∧ (∀ l, l ≠ s → records l (log v w).trace = records l w.trace)
        ∧ (log v w).conn = w.conn)
    ∧ emitted w (log v (SetLogger (some s) w)) = [.print s w.conn.session v] := by
  have hnil : ∀ (cs : List (List Value)) (u : World), u.conn.logger = none →
      logAll cs u = u := by
    intro cs
    induction cs with
    | nil => intro u _; rfl
    | cons a as ih =>
      intro u hu
      have : log a u = u := by simp [log, hu]
      simp only [logAll, List.foldl_cons, this]
      exact ih u hu
  have h1 := hnil calls (SetLogger none (SetLogger (some s) w)) rfl
  rw [h1]
  refine ⟨rfl, ?_, rfl, ?_, ?_⟩
  · simp [emitted, SetLogger]
  · intro hl
    have ht : (log v w).trace = w.trace ++ [.print s w.conn.session v] := by
      simp [log, hl, emit_trace]
    refine ⟨emitted_append w _ _ ht, ?_, ?_, ?_⟩
    · rw [ht, records_append]
      simp [records]
    · intro l hne
      rw [ht, records_append]
      have : ¬ s = l := fun h => hne h.symm
      simp [records, this]
    · simp [log, hl, emit_conn]
  · apply emitted_append
    simp [log, SetLogger, emit_trace]

/-- C9, at a connection with session id s-1 logging to sink 7, and after the
sink has been cleared. -/
theorem log_follows_SetLogger_witness :
    emitted (SetLogger (some 7) (fresh plainConn))
        (log [.str "CONNECT", .int 3] (SetLogger (some 7) (fresh plainConn)))
      = [.print 7 "s-1" [.str "CONNECT", .int 3]]
    ∧ records 7 (log [.str "CONNECT", .int 3] (SetLogger (some 7) (fresh plainConn))).trace
      = [("s-1", [.str "CONNECT", .int 3])]
    ∧ records 7 (logAll [[.str "a"], [.str "b"]]
        (SetLogger none (SetLogger (some 7) (fresh plainConn)))).trace = [] :=
  ⟨((log_follows_SetLogger (SetLogger (some 7) (fresh plainConn)) 7 []
      [.str "CONNECT", .int 3]).2.2.2.1 rfl).1,
   ((log_follows_SetLogger (SetLogger (some 7) (fresh plainConn)) 7 []
      [.str "CONNECT", .int 3]).2.2.2.1 rfl).2.1,
   (log_follows_SetLogger (fresh plainConn) 7 [[.str "a"], [.str "b"]] []).2.2.1⟩

/-! ## Version registry -/

/-- C10: `Supported v` returns what the lookup of the version registry returns
for `v`, which is true exactly when `v` is one of the registry's versions; it
is a function of the registry and `v` alone; with the registry 1.0, 1.1, 1.2,
`Supported "1.1"` is true and `Supported "9.9"` is false. -/
theorem Supported_registry (reg : protocols) (v : String) :
    Supported reg v = reg.Supported v
    ∧ (Supported reg v = true ↔ v ∈ reg.versions)
    ∧ Supported ⟨["1.0", "1.1", "1.2"]⟩ "1.1" = true
    ∧ Supported ⟨["1.0", "1.1", "1.2"]⟩ "9.9" = false := by
  refine ⟨rfl, ?_, by decide, by decide⟩
  simp [Supported, protocols.Supported]

end Stompngo
